import Mathlib

/-!
# Instrument repository of the data collector (`pkg/db/data-instrument.go`)

A shallow embedding of the instrument queries and of the rolling-set filter,
followed by the properties the specification states about them.

Conventions of the embedding

* A Go `string` is its byte sequence (`List Nat`, one entry per byte), so that
  `len` is the byte length and `strings.Index` is a byte-wise search.
* A Go result `(*[]T, error)` of a list operation is `Except ServerError (List T)`:
  the source returns either `(nil, err)` or `(&list, nil)`.
* A Go result `(*T, error)` of a singular lookup is the pair
  `Option T × Option ServerError`, because the source has three outcomes
  (`(nil, err)`, `(&row, nil)` and `(nil, nil)`).
* The transaction handle `tx` is the snapshot of the tables it can see together
  with the failure, if any, that the store reports for a query.
* `ORDER BY` is a stable sort of the rows in table order.
-/

namespace DataCollector

deriving instance DecidableEq for Except

/-! ## Go strings -/

/-- A Go string: a sequence of bytes. -/
abbrev GoString := List Nat

/-- The bytes of an ASCII literal, used to write concrete strings. -/
def str (s : String) : GoString := s.toList.map Char.toNat

/-- Search of `strings.Index`, at offset `i` of the original string: the offset
of the first suffix of the remaining text that starts with `substr`, or `-1`. -/
def stringsIndexFrom (substr : GoString) : GoString → Nat → Int
  | [], i => if substr = [] then (i : Int) else -1
  | c :: cs, i =>
    if substr.isPrefixOf (c :: cs) then (i : Int) else stringsIndexFrom substr cs (i + 1)

/-- Go `strings.Index(s, substr)`: the index of the first instance of `substr`
in `s`, or `-1` if `substr` is not present in `s`. -/
def stringsIndex (s substr : GoString) : Int := stringsIndexFrom substr s 0

/-! ## Data model -/

/-- Modelled from the spec: the `DataInstrument` record (its Go type declaration
is not part of the reviewed source). The fields are those of section 3 of the
specification plus the columns the queries name (`data_product_id`,
`data_block_id`, `expiration_date`, `continuous`, `virtual_instrument`, `name`).
A nullable column is an `Option`. -/
structure DataInstrument where
  Id : Nat
  DataProductId : Nat
  DataBlockId : Option Nat
  Symbol : GoString
  Name : GoString
  ExpirationDate : Option Int
  Continuous : Bool
  Month : GoString
  VirtualInstrument : Bool
  deriving DecidableEq, Repr

/-- Modelled from the spec: the `data_block` row, with the columns the queries
select (`status`, `data_from`, `data_to`, `progress`, `global`). -/
structure DataBlock where
  Id : Nat
  Status : Option Int
  DataFrom : Option Int
  DataTo : Option Int
  Progress : Option Int
  Global : Option Bool
  deriving DecidableEq, Repr

/-- Modelled from the spec: the `download_job` row, with the columns the full
listing selects. -/
structure DownloadJob where
  Id : Nat
  DataInstrumentId : Nat
  Status : Option Int
  Priority : Option Int
  LoadFrom : Option Int
  LoadTo : Option Int
  CurrDay : Option Int
  TotDays : Option Int
  Error : Option GoString
  deriving DecidableEq, Repr

/-- Modelled from the spec: the `ingestion_job` row, with the columns the full
listing selects. -/
structure IngestionJob where
  Id : Nat
  DataInstrumentId : Nat
  Filename : Option GoString
  Records : Option Int
  Bytes : Option Int
  Timezone : Option GoString
  Parser : Option GoString
  Error : Option GoString
  deriving DecidableEq, Repr

/-- Modelled from the spec: the `data_product` row, with the columns the
filtered listing reads (`symbol`, `system_code`, `connection_code`, `username`). -/
structure DataProduct where
  Id : Nat
  Symbol : GoString
  Username : GoString
  SystemCode : GoString
  ConnectionCode : GoString
  deriving DecidableEq, Repr

/-- Modelled from the spec: `DataInstrumentExt`, an instrument widened with the
status overlay. Every overlay field is nullable: it is absent when the joined
row is absent or when the query does not select it. -/
structure DataInstrumentExt extends DataInstrument where
  Status : Option Int
  DataFrom : Option Int
  DataTo : Option Int
  Progress : Option Int
  Global : Option Bool
  DjStatus : Option Int
  DjPriority : Option Int
  DjLoadFrom : Option Int
  DjLoadTo : Option Int
  DjCurrDay : Option Int
  DjTotDays : Option Int
  DjError : Option GoString
  IjFilename : Option GoString
  IjRecords : Option Int
  IjBytes : Option Int
  IjTimezone : Option GoString
  IjParser : Option GoString
  IjError : Option GoString
  deriving DecidableEq, Repr

/-- Modelled from the spec: `DataInstrumentFull`, an instrument widened with the
fields of its owning product that the filtered listing selects. -/
structure DataInstrumentFull extends DataInstrument where
  ProductSymbol : GoString
  SystemCode : GoString
  ConnectionCode : GoString
  deriving DecidableEq, Repr

/-- An error reported by the store for a query. -/
structure DbError where
  msg : GoString
  deriving DecidableEq, Repr

/-- The result of `req.NewServerErrorByError`: the store error wrapped into a
server-side error. -/
structure ServerError where
  cause : DbError
  deriving DecidableEq, Repr

/-- The wrapper `req.NewServerErrorByError`. -/
def NewServerErrorByError (e : DbError) : ServerError := ⟨e⟩

/-- The transaction handle `*gorm.DB`: the tables visible to the transaction,
in table order, and the failure the store reports, if any. -/
structure DB where
  dataInstrument : List DataInstrument
  dataBlock : List DataBlock
  downloadJob : List DownloadJob
  ingestionJob : List IngestionJob
  dataProduct : List DataProduct
  fault : Option DbError
  deriving Repr

/-- The final step `Find(&list)`: `res.Error` is the fault of the store, and
otherwise the rows of the query are stored into `list`. -/
def DB.Find {α : Type} (tx : DB) (rows : List α) : Except DbError (List α) :=
  match tx.fault with
  | some e => .error e
  | none => .ok rows

/-! ## Ordering -/

/-- Ascending order of a nullable integer column; `NULL` sorts first. -/
def nullableLe : Option Int → Option Int → Bool
  | none, _ => true
  | some _, none => false
  | some x, some y => decide (x ≤ y)

/-- Byte-wise lexicographic order of two strings. -/
def strLe : GoString → GoString → Bool
  | [], _ => true
  | _ :: _, [] => false
  | a :: as, b :: bs => if a < b then true else if b < a then false else strLe as bs

/-- The clause `Order(col)`: a stable ascending sort by the given comparison. -/
def orderBy {α : Type} (le : α → α → Bool) (rows : List α) : List α :=
  rows.insertionSort (fun a b => le a b = true)

/-- Comparison of two instruments by `expiration_date`. -/
def byExpiration (a b : DataInstrument) : Bool :=
  nullableLe a.ExpirationDate b.ExpirationDate

/-! ## Rolling-set operations -/

/-- The loop shared by both rolling-set operations (lines 85-92 and 114-121):
`result` starts empty and each fetched row whose `Month` is non-empty and found
by `strings.Index` in `months` is appended to it. -/
def rollingLoop {α : Type} (month : α → GoString) (months : GoString) (list : List α) :
    List α :=
  list.foldl
    (fun result die =>
      if (month die).length > 0 && decide (stringsIndex months (month die) ≥ 0) then
        result ++ [die]
      else result)
    []

/-- The condition of the loop, as a predicate on a fetched row. -/
def inMonthSet {α : Type} (month : α → GoString) (months : GoString) (die : α) : Bool :=
  (month die).length > 0 && decide (stringsIndex months (month die) ≥ 0)

/-- The rows of the query of `GetRollingDataInstrumentsByProductIdFast`:
`Where({data_product_id: pId, continuous: 0}).Order("expiration_date")`. -/
def rollingRowsFast (tx : DB) (pId : Nat) : List DataInstrument :=
  orderBy byExpiration
    (tx.dataInstrument.filter (fun di => di.DataProductId == pId && di.Continuous == false))

/-- The fetch of `GetRollingDataInstrumentsByProductIdFast` (lines 106-108). -/
def fetchRollingFast (tx : DB) (pId : Nat) : Except DbError (List DataInstrument) :=
  tx.Find (rollingRowsFast tx pId)

/-- The operation `GetRollingDataInstrumentsByProductIdFast`. -/
def GetRollingDataInstrumentsByProductIdFast (tx : DB) (pId : Nat) (months : GoString) :
    Except ServerError (List DataInstrument) :=
  match fetchRollingFast tx pId with
  | .error e => .error (NewServerErrorByError e)
  | .ok list => .ok (rollingLoop DataInstrument.Month months list)

/-- The inner join `JOIN data_block db ON db.id = data_block_id`: one row per
pair of an instrument and a data block whose id is the instrument's
`data_block_id`; an instrument without such a block yields no row. -/
def joinDataBlock (tx : DB) : List (DataInstrument × DataBlock) :=
  tx.dataInstrument.flatMap (fun di =>
    (tx.dataBlock.filter (fun db => di.DataBlockId == some db.Id)).map (fun db => (di, db)))

/-- The projection of the overlay variant:
`data_instrument.*, db.status, db.data_from, db.data_to, db.progress`; the
fields that are not selected keep their zero value. -/
def selectRolling (r : DataInstrument × DataBlock) : DataInstrumentExt :=
  { toDataInstrument := r.1
    Status := r.2.Status, DataFrom := r.2.DataFrom, DataTo := r.2.DataTo
    Progress := r.2.Progress, Global := none
    DjStatus := none, DjPriority := none, DjLoadFrom := none, DjLoadTo := none
    DjCurrDay := none, DjTotDays := none, DjError := none
    IjFilename := none, IjRecords := none, IjBytes := none, IjTimezone := none
    IjParser := none, IjError := none }

/-- The rows of the query of `GetRollingDataInstrumentsByProductId` (lines 74-79):
the inner join with `data_block`, the equality filter on `data_product_id` and
`continuous`, the order by `expiration_date`, and the projection. -/
def rollingRows (tx : DB) (pId : Nat) : List DataInstrumentExt :=
  (orderBy (fun a b => byExpiration a.1 b.1)
    ((joinDataBlock tx).filter
      (fun r => r.1.DataProductId == pId && r.1.Continuous == false))).map selectRolling

/-- The fetch of `GetRollingDataInstrumentsByProductId` (lines 74-79). -/
def fetchRolling (tx : DB) (pId : Nat) : Except DbError (List DataInstrumentExt) :=
  tx.Find (rollingRows tx pId)

/-- The operation `GetRollingDataInstrumentsByProductId`. -/
def GetRollingDataInstrumentsByProductId (tx : DB) (pId : Nat) (months : GoString) :
    Except ServerError (List DataInstrumentExt) :=
  match fetchRolling tx pId with
  | .error e => .error (NewServerErrorByError e)
  | .ok list => .ok (rollingLoop (fun die => die.Month) months list)

/-! ## Singular lookups -/

/-- The rows of `tx.Find(&list, id)`: the instruments whose primary key is `id`. -/
def rowsById (tx : DB) (id : Nat) : List DataInstrument :=
  tx.dataInstrument.filter (fun di => di.Id == id)

/-- The fetch of `GetDataInstrumentById` (line 154). -/
def fetchById (tx : DB) (id : Nat) : Except DbError (List DataInstrument) :=
  tx.Find (rowsById tx id)

/-- The operation `GetDataInstrumentById`. -/
def GetDataInstrumentById (tx : DB) (id : Nat) : Option DataInstrument × Option ServerError :=
  match fetchById tx id with
  | .error e => (none, some (NewServerErrorByError e))
  | .ok list => if list.length == 1 then (list[0]?, none) else (none, none)

/-- The rows of `Where({data_product_id: pId, virtual_instrument: true})`. -/
def rowsVirtual (tx : DB) (pId : Nat) : List DataInstrument :=
  tx.dataInstrument.filter (fun di => di.DataProductId == pId && di.VirtualInstrument == true)

/-- The fetch of `GetVirtualDataInstrumentByProductId` (line 176). -/
def fetchVirtual (tx : DB) (pId : Nat) : Except DbError (List DataInstrument) :=
  tx.Find (rowsVirtual tx pId)

/-- The operation `GetVirtualDataInstrumentByProductId`. -/
def GetVirtualDataInstrumentByProductId (tx : DB) (pId : Nat) :
    Option DataInstrument × Option ServerError :=
  match fetchVirtual tx pId with
  | .error e => (none, some (NewServerErrorByError e))
  | .ok list => if list.length == 1 then (list[0]?, none) else (none, none)

/-- The rows of `Where({data_product_id: productId, symbol: symbol})`. -/
def rowsBySymbol (tx : DB) (productId : Nat) (symbol : GoString) : List DataInstrument :=
  tx.dataInstrument.filter (fun di => di.DataProductId == productId && di.Symbol == symbol)

/-- The fetch of `GetDataInstrumentBySymbol` (line 197). -/
def fetchBySymbol (tx : DB) (productId : Nat) (symbol : GoString) :
    Except DbError (List DataInstrument) :=
  tx.Find (rowsBySymbol tx productId symbol)

/-- The operation `GetDataInstrumentBySymbol`. -/
def GetDataInstrumentBySymbol (tx : DB) (productId : Nat) (symbol : GoString) :
    Option DataInstrument × Option ServerError :=
  match fetchBySymbol tx productId symbol with
  | .error e => (none, some (NewServerErrorByError e))
  | .ok list => if list.length == 1 then (list[0]?, none) else (none, none)

/-! ## Full listing of a product -/

/-- The right side of a `LEFT JOIN` for one left row: the matching rows, or a
single all-`NULL` row when there is none. -/
def leftMatches {β : Type} : List β → List (Option β)
  | [] => [none]
  | b :: bs => (b :: bs).map some

/-- A row of the three-way optional join of the full listing. -/
structure FullRow where
  di : DataInstrument
  db : Option DataBlock
  dj : Option DownloadJob
  ij : Option IngestionJob
  deriving DecidableEq, Repr

/-- The joins of the full listing (lines 51-53):
`LEFT JOIN data_block db ON db.id = data_block_id`,
`LEFT JOIN download_job dj ON dj.data_instrument_id = data_instrument.id`,
`LEFT JOIN ingestion_job ij ON ij.data_instrument_id = data_instrument.id`. -/
def joinFull (tx : DB) : List FullRow :=
  tx.dataInstrument.flatMap fun di =>
    (leftMatches (tx.dataBlock.filter (fun db => di.DataBlockId == some db.Id))).flatMap fun db =>
      (leftMatches (tx.downloadJob.filter (fun dj => dj.DataInstrumentId == di.Id))).flatMap
        fun dj =>
          (leftMatches (tx.ingestionJob.filter (fun ij => ij.DataInstrumentId == di.Id))).map
            fun ij => { di := di, db := db, dj := dj, ij := ij }

/-- The column `db.status` of a joined row: `NULL` when no block is joined. -/
def FullRow.status (r : FullRow) : Option Int := r.db.bind (fun b => b.Status)

/-- The projection of the full listing (lines 47-50). -/
def selectFull (r : FullRow) : DataInstrumentExt :=
  { toDataInstrument := r.di
    Status := r.status
    DataFrom := r.db.bind (fun b => b.DataFrom)
    DataTo := r.db.bind (fun b => b.DataTo)
    Progress := r.db.bind (fun b => b.Progress)
    Global := r.db.bind (fun b => b.Global)
    DjStatus := r.dj.bind (fun j => j.Status)
    DjPriority := r.dj.bind (fun j => j.Priority)
    DjLoadFrom := r.dj.bind (fun j => j.LoadFrom)
    DjLoadTo := r.dj.bind (fun j => j.LoadTo)
    DjCurrDay := r.dj.bind (fun j => j.CurrDay)
    DjTotDays := r.dj.bind (fun j => j.TotDays)
    DjError := r.dj.bind (fun j => j.Error)
    IjFilename := r.ij.bind (fun j => j.Filename)
    IjRecords := r.ij.bind (fun j => j.Records)
    IjBytes := r.ij.bind (fun j => j.Bytes)
    IjTimezone := r.ij.bind (fun j => j.Timezone)
    IjParser := r.ij.bind (fun j => j.Parser)
    IjError := r.ij.bind (fun j => j.Error) }

/-- The filter of the full listing (lines 40-44): `data_product_id = pId`, and
when `stored` is set `AND (db.status IS NOT NULL OR virtual_instrument = 1)`. -/
def fullFilter (pId : Nat) (stored : Bool) : FullRow → Bool :=
  let filter : FullRow → Bool := fun r => r.di.DataProductId == pId
  if stored then
    fun r => filter r && (r.status.isSome || r.di.VirtualInstrument == true)
  else filter

/-- The rows of the query of `GetDataInstrumentsByProductIdFull` (lines 46-56). -/
def fullRows (tx : DB) (pId : Nat) (stored : Bool) : List DataInstrumentExt :=
  (orderBy (fun a b => byExpiration a.di b.di)
    ((joinFull tx).filter (fullFilter pId stored))).map selectFull

/-- The operation `GetDataInstrumentsByProductIdFull`. -/
def GetDataInstrumentsByProductIdFull (tx : DB) (pId : Nat) (stored : Bool) :
    Except ServerError (List DataInstrumentExt) :=
  match tx.Find (fullRows tx pId stored) with
  | .error e => .error (NewServerErrorByError e)
  | .ok list => .ok list

/-! ## Filtered listing -/

/-- A value of a criteria map (`any`) or of a column. -/
inductive Value where
  | int (n : Int)
  | text (s : GoString)
  | bool (b : Bool)
  | null
  deriving DecidableEq, Repr

/-- The value as the store compares it: a boolean is the integer 0 or 1. -/
def Value.sql : Value → Value
  | .bool b => .int (if b then 1 else 0)
  | v => v

/-- A Go `map[string]any`: an association list read through `Criteria.get`. -/
abbrev Criteria := List (GoString × Value)

/-- Go `v, ok := m[k]`: `none` when `ok` is false. -/
def Criteria.get (m : Criteria) (k : GoString) : Option Value :=
  (m.find? (fun e => e.1 == k)).map (fun e => e.2)

/-- Go `delete(m, k)`. -/
def Criteria.delete (m : Criteria) (k : GoString) : Criteria :=
  m.filter (fun e => !(e.1 == k))

/-- Go `m[k] = v`. -/
def Criteria.set (m : Criteria) (k : GoString) (v : Value) : Criteria :=
  m.delete k ++ [(k, v)]

/-- The criteria applied to the query by `GetDataInstrumentsFull` (lines 129-132):
when `filter` has the key `username`, the key is deleted and its value is
stored under `dp.username`. -/
def appliedCriteria (filter : Criteria) : Criteria :=
  match filter.get (str "username") with
  | some user => (filter.delete (str "username")).set (str "dp.username") user
  | none => filter

/-- The inner join `JOIN data_product dp ON dp.id = data_product_id`. -/
def joinDataProduct (tx : DB) : List (DataInstrument × DataProduct) :=
  tx.dataInstrument.flatMap (fun di =>
    (tx.dataProduct.filter (fun dp => dp.Id == di.DataProductId)).map (fun dp => (di, dp)))

/-- Modelled from the spec: the columns a criterion of the filtered listing can
name (the table declarations are not part of the reviewed source): the
instrument's own columns, and the owning product's columns under the alias
`dp`. A name outside this set is unknown to the store. -/
def column (r : DataInstrument × DataProduct) (col : GoString) : Option Value :=
  if col = str "id" then some (.int r.1.Id)
  else if col = str "data_product_id" then some (.int r.1.DataProductId)
  else if col = str "data_block_id" then
    some (match r.1.DataBlockId with | some b => .int b | none => .null)
  else if col = str "symbol" then some (.text r.1.Symbol)
  else if col = str "name" then some (.text r.1.Name)
  else if col = str "expiration_date" then
    some (match r.1.ExpirationDate with | some d => .int d | none => .null)
  else if col = str "continuous" then some (.bool r.1.Continuous)
  else if col = str "month" then some (.text r.1.Month)
  else if col = str "virtual_instrument" then some (.bool r.1.VirtualInstrument)
  else if col = str "dp.id" then some (.int r.2.Id)
  else if col = str "dp.symbol" then some (.text r.2.Symbol)
  else if col = str "dp.username" then some (.text r.2.Username)
  else if col = str "dp.system_code" then some (.text r.2.SystemCode)
  else if col = str "dp.connection_code" then some (.text r.2.ConnectionCode)
  else none

/-- The names for which `column` is defined. -/
def knownColumns : List GoString :=
  [str "id", str "data_product_id", str "data_block_id", str "symbol", str "name",
   str "expiration_date", str "continuous", str "month", str "virtual_instrument",
   str "dp.id", str "dp.symbol", str "dp.username", str "dp.system_code",
   str "dp.connection_code"]

/-- The clause `Where(filter)` for a criteria map: every entry is an equality
constraint on the column its key names; `NULL` equals nothing. -/
def satisfies (filter : Criteria) (r : DataInstrument × DataProduct) : Bool :=
  filter.all (fun e =>
    match column r e.1 with
    | some v => v != Value.null && v.sql == e.2.sql
    | none => false)

/-- The projection of the filtered listing (line 137). -/
def selectProduct (r : DataInstrument × DataProduct) : DataInstrumentFull :=
  { toDataInstrument := r.1, ProductSymbol := r.2.Symbol, SystemCode := r.2.SystemCode
    ConnectionCode := r.2.ConnectionCode }

/-- The query of the filtered listing (lines 136-141) for the criteria it is
given: the store rejects a criterion on an unknown column, and otherwise
returns the joined rows that satisfy the criteria, ordered by `name`. -/
def whereOrderFind (tx : DB) (filter : Criteria) : Except DbError (List DataInstrumentFull) :=
  if filter.all (fun e => knownColumns.contains e.1) then
    tx.Find ((orderBy (fun a b => strLe a.1.Name b.1.Name)
      ((joinDataProduct tx).filter (satisfies filter))).map selectProduct)
  else .error ⟨str "unknown column"⟩

/-- The operation `GetDataInstrumentsFull`. -/
def GetDataInstrumentsFull (tx : DB) (filter : Criteria) :
    Except ServerError (List DataInstrumentFull) :=
  match whereOrderFind tx (appliedCriteria filter) with
  | .error e => .error (NewServerErrorByError e)
  | .ok list => .ok list

/-! ## Month tokens -/

/-- The test of both rolling-set operations on a month code:
`strings.Index(months, m) >= 0`. -/
def monthTest (months m : GoString) : Bool := decide (stringsIndex months m ≥ 0)

/-- The month universe built from a list of tokens: their concatenation. -/
def concatTokens (T : List GoString) : GoString := T.flatten

/-- The order of two overlay rows by `expiration_date`. -/
def expirationOrder (a b : DataInstrument) : Prop :=
  nullableLe a.ExpirationDate b.ExpirationDate = true

/-- The filter of the specification: the month is non-empty and is a contiguous
substring of the month universe. -/
def monthEligible (months m : GoString) : Bool := decide (m ≠ []) && decide (m <:+: months)

/-- The instrument has a data block: some row of `data_block` has the id the
instrument's `data_block_id` names. -/
def hasDataBlock (tx : DB) (di : DataInstrument) : Bool :=
  tx.dataBlock.any (fun db => di.DataBlockId == some db.Id)

/-- The instrument has a joined data block whose status is not `NULL`. -/
def hasStoredBlock (tx : DB) (di : DataInstrument) : Prop :=
  ∃ db ∈ tx.dataBlock, di.DataBlockId = some db.Id ∧ db.Status ≠ none

/-- The instrument has no data block, no download job and no ingestion job. -/
def hasNoActivity (tx : DB) (di : DataInstrument) : Prop :=
  (∀ db ∈ tx.dataBlock, di.DataBlockId ≠ some db.Id) ∧
  (∀ dj ∈ tx.downloadJob, dj.DataInstrumentId ≠ di.Id) ∧
  (∀ ij ∈ tx.ingestionJob, ij.DataInstrumentId ≠ di.Id)

/-- A criteria map with a `username` entry, used as a sample. -/
def aliceCriteria : Criteria :=
  [(str "continuous", Value.int 0), (str "username", Value.text (str "alice"))]

/-! ## Sample stores -/

/-- Instrument A of the scenario: month `F23`, not continuous. -/
def instrA : DataInstrument :=
  { Id := 1, DataProductId := 10, DataBlockId := some 100, Symbol := str "ESF23"
    Name := str "A", ExpirationDate := some 20230120, Continuous := false
    Month := str "F23", VirtualInstrument := false }

/-- Instrument B of the scenario: month `G23`, not continuous, no data block. -/
def instrB : DataInstrument :=
  { Id := 2, DataProductId := 10, DataBlockId := none, Symbol := str "ESG23"
    Name := str "B", ExpirationDate := some 20230217, Continuous := false
    Month := str "G23", VirtualInstrument := false }

/-- Instrument C of the scenario: empty month, continuous, no expiration. -/
def instrC : DataInstrument :=
  { Id := 3, DataProductId := 10, DataBlockId := none, Symbol := str "ES"
    Name := str "C", ExpirationDate := none, Continuous := true
    Month := [], VirtualInstrument := true }

/-- An instrument with an empty month whose `continuous` flag is not set. -/
def instrD : DataInstrument :=
  { Id := 4, DataProductId := 10, DataBlockId := some 101, Symbol := str "ESX"
    Name := str "D", ExpirationDate := none, Continuous := false
    Month := [], VirtualInstrument := false }

/-- The data block of instrument A. -/
def blockA : DataBlock :=
  { Id := 100, Status := some 1, DataFrom := some 20220101, DataTo := some 20230101
    Progress := some 100, Global := some false }

/-- The data block of instrument D. -/
def blockD : DataBlock :=
  { Id := 101, Status := some 0, DataFrom := none, DataTo := none
    Progress := some 0, Global := some false }

/-- A store holding the four instruments above, not in expiration order, and
the data blocks of A and D. -/
def sampleTx : DB :=
  { dataInstrument := [instrB, instrC, instrA, instrD], dataBlock := [blockA, blockD]
    downloadJob := [], ingestionJob := []
    dataProduct := [{ Id := 10, Symbol := str "ES", Username := str "alice"
                      SystemCode := str "SYS", ConnectionCode := str "CONN" }]
    fault := none }

/-- A store in which two rows share the id, the product, the symbol and the
virtual flag of instrument C. -/
def dupTx : DB :=
  { dataInstrument := [instrC, { instrC with Name := str "C2" }], dataBlock := []
    downloadJob := [], ingestionJob := [], dataProduct := [], fault := none }

/-! ## Lemmas on the string search and on the loop -/

theorem stringsIndexFrom_eq_neg_one_or (substr s : GoString) (i : Nat) :
    (substr <:+: s ∧ (i : Int) ≤ stringsIndexFrom substr s i) ∨
      (¬ substr <:+: s ∧ stringsIndexFrom substr s i = -1) := by
  induction s generalizing i with
  | nil =>
    by_cases h : substr = []
    · left; simp [stringsIndexFrom, h]
    · right; simp [stringsIndexFrom, h]
  | cons c cs ih =>
    by_cases hp : substr.isPrefixOf (c :: cs) = true
    · left
      refine ⟨?_, by simp [stringsIndexFrom, hp]⟩
      exact (List.isPrefixOf_iff_prefix.mp hp).isInfix
    · have hnp : ¬ substr <+: c :: cs := fun h => hp (List.isPrefixOf_iff_prefix.mpr h)
      rcases ih (i + 1) with ⟨hin, hle⟩ | ⟨hnin, heq⟩
      · left
        refine ⟨List.infix_cons hin, ?_⟩
        simp only [stringsIndexFrom, hp]
        simp only [Bool.false_eq_true, if_false]
        push_cast at hle
        omega
      · right
        refine ⟨?_, by simpa [stringsIndexFrom, hp] using heq⟩
        intro h
        rcases List.infix_cons_iff.mp h with h | h
        · exact hnp h
        · exact hnin h

theorem stringsIndex_nonneg_iff (s substr : GoString) :
    stringsIndex s substr ≥ 0 ↔ substr <:+: s := by
  unfold stringsIndex
  rcases stringsIndexFrom_eq_neg_one_or substr s 0 with ⟨hin, hle⟩ | ⟨hnin, heq⟩
  · exact ⟨fun _ => hin, fun _ => by simpa using hle⟩
  · constructor
    · intro h; rw [heq] at h; omega
    · intro h; exact absurd h hnin

theorem foldl_append_if {α : Type} (p : α → Bool) (list acc : List α) :
    list.foldl (fun result die => if p die then result ++ [die] else result) acc
      = acc ++ list.filter p := by
  induction list generalizing acc with
  | nil => simp
  | cons a l ih =>
    simp only [List.foldl_cons, ih, List.filter_cons]
    by_cases h : p a = true <;> simp [h]

theorem rollingLoop_eq_filter {α : Type} (month : α → GoString) (months : GoString)
    (list : List α) : rollingLoop month months list = list.filter (inMonthSet month months) := by
  unfold rollingLoop
  have h := foldl_append_if (inMonthSet month months) list []
  simpa [inMonthSet] using h

theorem inMonthSet_iff {α : Type} (month : α → GoString) (months : GoString) (die : α) :
    inMonthSet month months die = true ↔ month die ≠ [] ∧ month die <:+: months := by
  simp [inMonthSet, stringsIndex_nonneg_iff, List.length_pos]

/-! ## Lemmas on the queries -/

theorem Find_eq_ok {α : Type} {tx : DB} {rows L : List α} (h : tx.Find rows = .ok L) :
    tx.fault = none ∧ L = rows := by
  unfold DB.Find at h
  cases hf : tx.fault with
  | none => rw [hf] at h; simp only [Except.ok.injEq] at h; exact ⟨rfl, h.symm⟩
  | some e => rw [hf] at h; cases h

theorem mem_orderBy {α : Type} (le : α → α → Bool) (rows : List α) (x : α) :
    x ∈ orderBy le rows ↔ x ∈ rows := by
  unfold orderBy
  exact List.mem_insertionSort _

theorem mem_rollingRowsFast {tx : DB} {pId : Nat} {die : DataInstrument}
    (h : die ∈ rollingRowsFast tx pId) : die.DataProductId = pId ∧ die.Continuous = false := by
  unfold rollingRowsFast at h
  rw [mem_orderBy, List.mem_filter] at h
  simpa using h.2

theorem mem_rollingRows {tx : DB} {pId : Nat} {die : DataInstrumentExt}
    (h : die ∈ rollingRows tx pId) : die.DataProductId = pId ∧ die.Continuous = false := by
  unfold rollingRows at h
  rw [List.mem_map] at h
  obtain ⟨r, hr, rfl⟩ := h
  rw [mem_orderBy, List.mem_filter] at hr
  simpa [selectRolling] using hr.2

theorem rolling_of_fetch {tx : DB} {pId : Nat} (months : GoString) {L : List DataInstrumentExt}
    (h : fetchRolling tx pId = .ok L) :
    GetRollingDataInstrumentsByProductId tx pId months
      = .ok (L.filter (inMonthSet (fun die => die.Month) months)) := by
  unfold GetRollingDataInstrumentsByProductId
  rw [h]
  simp only [rollingLoop_eq_filter]

theorem rollingFast_of_fetch {tx : DB} {pId : Nat} (months : GoString) {L : List DataInstrument}
    (h : fetchRollingFast tx pId = .ok L) :
    GetRollingDataInstrumentsByProductIdFast tx pId months
      = .ok (L.filter (inMonthSet DataInstrument.Month months)) := by
  unfold GetRollingDataInstrumentsByProductIdFast
  rw [h]
  simp only [rollingLoop_eq_filter]

theorem count_filter_ite {α : Type} [DecidableEq α] (p : α → Bool) (l : List α) (a : α) :
    (l.filter p).count a = if p a = true then l.count a else 0 := by
  by_cases hp : p a = true
  · rw [if_pos hp]
    exact List.count_filter hp
  · rw [if_neg hp]
    apply List.count_eq_zero_of_not_mem
    intro hm
    exact hp (List.mem_filter.mp hm).2

/-! ## Rolling-set properties -/

/-- C1: after a successful fetch both rolling-set operations return a list, and
every returned instrument belongs to the product, has `continuous = false`, has
a non-empty `Month`, and its `Month` is a contiguous substring of `months`. -/
theorem rolling_result_eligible (tx : DB) (pId : Nat) (months : GoString)
    (L : List DataInstrumentExt) (LF : List DataInstrument)
    (h : fetchRolling tx pId = .ok L) (hF : fetchRollingFast tx pId = .ok LF) :
    ∃ R RF, GetRollingDataInstrumentsByProductId tx pId months = .ok R ∧
      GetRollingDataInstrumentsByProductIdFast tx pId months = .ok RF ∧
      (∀ die ∈ R, die.DataProductId = pId ∧ die.Continuous = false ∧
        die.Month ≠ [] ∧ die.Month <:+: months) ∧
      (∀ die ∈ RF, die.DataProductId = pId ∧ die.Continuous = false ∧
        die.Month ≠ [] ∧ die.Month <:+: months) := by
  refine ⟨_, _, rolling_of_fetch months h, rollingFast_of_fetch months hF, ?_, ?_⟩
  · intro die hd
    rw [List.mem_filter, inMonthSet_iff] at hd
    obtain ⟨_, rfl⟩ := Find_eq_ok h
    have hq := mem_rollingRows hd.1
    exact ⟨hq.1, hq.2, hd.2.1, hd.2.2⟩
  · intro die hd
    rw [List.mem_filter, inMonthSet_iff] at hd
    obtain ⟨_, rfl⟩ := Find_eq_ok hF
    have hq := mem_rollingRowsFast hd.1
    exact ⟨hq.1, hq.2, hd.2.1, hd.2.2⟩

/-- Witness of C1 on the sample store with the universe `F23G23H23`. -/
theorem rolling_result_eligible_witness :
    fetchRolling sampleTx 10 = .ok [selectRolling (instrD, blockD), selectRolling (instrA, blockA)] ∧
    fetchRollingFast sampleTx 10 = .ok [instrD, instrA, instrB] ∧
    ∃ R RF, GetRollingDataInstrumentsByProductId sampleTx 10 (str "F23G23H23") = .ok R ∧
      GetRollingDataInstrumentsByProductIdFast sampleTx 10 (str "F23G23H23") = .ok RF ∧
      (∀ die ∈ R, die.DataProductId = 10 ∧ die.Continuous = false ∧
        die.Month ≠ [] ∧ die.Month <:+: str "F23G23H23") ∧
      (∀ die ∈ RF, die.DataProductId = 10 ∧ die.Continuous = false ∧
        die.Month ≠ [] ∧ die.Month <:+: str "F23G23H23") :=
  ⟨by decide, by decide,
    rolling_result_eligible sampleTx 10 (str "F23G23H23")
      [selectRolling (instrD, blockD), selectRolling (instrA, blockA)] [instrD, instrA, instrB]
      (by decide) (by decide)⟩

/-- C2: after a successful fetch of `L`, the result of each rolling-set
operation is a sublist of `L` (elements are only removed, the retained ones keep
their relative order and multiplicity), and it is sorted by `expirationDate`
whenever `L` is. -/
theorem rolling_result_sublist (tx : DB) (pId : Nat) (months : GoString)
    (L : List DataInstrumentExt) (LF : List DataInstrument)
    (h : fetchRolling tx pId = .ok L) (hF : fetchRollingFast tx pId = .ok LF) :
    ∃ R RF, GetRollingDataInstrumentsByProductId tx pId months = .ok R ∧
      GetRollingDataInstrumentsByProductIdFast tx pId months = .ok RF ∧
      R.Sublist L ∧ RF.Sublist LF ∧
      (L.Sorted (fun a b => expirationOrder a.toDataInstrument b.toDataInstrument) →
        R.Sorted (fun a b => expirationOrder a.toDataInstrument b.toDataInstrument)) ∧
      (LF.Sorted expirationOrder → RF.Sorted expirationOrder) := by
  refine ⟨_, _, rolling_of_fetch months h, rollingFast_of_fetch months hF,
    List.filter_sublist _, List.filter_sublist _, ?_, ?_⟩
  · intro hs
    exact List.Pairwise.sublist (List.filter_sublist _) hs
  · intro hs
    exact List.Pairwise.sublist (List.filter_sublist _) hs

/-- Witness of C2 on the sample store with the universe `G23F23`. -/
theorem rolling_result_sublist_witness :
    ∃ R RF, GetRollingDataInstrumentsByProductId sampleTx 10 (str "G23F23") = .ok R ∧
      GetRollingDataInstrumentsByProductIdFast sampleTx 10 (str "G23F23") = .ok RF ∧
      R.Sublist [selectRolling (instrD, blockD), selectRolling (instrA, blockA)] ∧
      RF.Sublist [instrD, instrA, instrB] ∧
      (List.Sorted (fun a b => expirationOrder a.toDataInstrument b.toDataInstrument)
          [selectRolling (instrD, blockD), selectRolling (instrA, blockA)] →
        R.Sorted (fun a b => expirationOrder a.toDataInstrument b.toDataInstrument)) ∧
      (List.Sorted expirationOrder [instrD, instrA, instrB] → RF.Sorted expirationOrder) :=
  rolling_result_sublist sampleTx 10 (str "G23F23")
    [selectRolling (instrD, blockD), selectRolling (instrA, blockA)] [instrD, instrA, instrB]
    (by decide) (by decide)

/-- C6: after a successful fetch, both rolling-set operations called with the
empty month universe return the empty list and no error. -/
theorem rolling_empty_universe (tx : DB) (pId : Nat)
    (L : List DataInstrumentExt) (LF : List DataInstrument)
    (h : fetchRolling tx pId = .ok L) (hF : fetchRollingFast tx pId = .ok LF) :
    GetRollingDataInstrumentsByProductId tx pId [] = .ok [] ∧
      GetRollingDataInstrumentsByProductIdFast tx pId [] = .ok [] := by
  rw [rolling_of_fetch [] h, rollingFast_of_fetch [] hF]
  refine ⟨?_, ?_⟩
  · congr 1
    rw [List.filter_eq_nil_iff]
    intro die _ hd
    rw [inMonthSet_iff] at hd
    exact hd.1 (List.infix_nil.mp hd.2)
  · congr 1
    rw [List.filter_eq_nil_iff]
    intro die _ hd
    rw [inMonthSet_iff] at hd
    exact hd.1 (List.infix_nil.mp hd.2)

/-- Witness of C6 on the sample store, whose fetch holds instruments with an
empty and with a non-empty month. -/
theorem rolling_empty_universe_witness :
    fetchRollingFast sampleTx 10 = .ok [instrD, instrA, instrB] ∧
    GetRollingDataInstrumentsByProductId sampleTx 10 [] = .ok [] ∧
      GetRollingDataInstrumentsByProductIdFast sampleTx 10 [] = .ok [] :=
  ⟨by decide, rolling_empty_universe sampleTx 10
    [selectRolling (instrD, blockD), selectRolling (instrA, blockA)] [instrD, instrA, instrB]
    (by decide) (by decide)⟩

/-- C10: after a successful fetch of `L`, each rolling-set operation returns
exactly `L` filtered by "the month is non-empty and a contiguous substring of
`months`"; every such element of `L` is returned with the multiplicity it has
in `L`, and no other element is returned. -/
theorem rolling_result_eq_filter (tx : DB) (pId : Nat) (months : GoString)
    (L : List DataInstrumentExt) (LF : List DataInstrument)
    (h : fetchRolling tx pId = .ok L) (hF : fetchRollingFast tx pId = .ok LF) :
    ∃ R RF, GetRollingDataInstrumentsByProductId tx pId months = .ok R ∧
      GetRollingDataInstrumentsByProductIdFast tx pId months = .ok RF ∧
      R = L.filter (fun die => monthEligible months die.Month) ∧
      RF = LF.filter (fun die => monthEligible months die.Month) ∧
      (∀ die, R.count die = if monthEligible months die.Month then L.count die else 0) ∧
      (∀ die, RF.count die = if monthEligible months die.Month then LF.count die else 0) := by
  have e1 : inMonthSet (fun die : DataInstrumentExt => die.Month) months
      = fun die => monthEligible months die.Month := by
    funext die
    rw [Bool.eq_iff_iff, inMonthSet_iff]
    simp [monthEligible]
  have e2 : inMonthSet DataInstrument.Month months
      = fun die => monthEligible months die.Month := by
    funext die
    rw [Bool.eq_iff_iff, inMonthSet_iff]
    simp [monthEligible]
  refine ⟨_, _, rolling_of_fetch months h, rollingFast_of_fetch months hF, ?_, ?_, ?_, ?_⟩
  · rw [e1]
  · rw [e2]
  · intro die
    rw [e1, count_filter_ite (fun d : DataInstrumentExt => monthEligible months d.Month)]
  · intro die
    rw [e2, count_filter_ite (fun d : DataInstrument => monthEligible months d.Month)]

/-- Witness of C10: the scenario of the specification. The fetch of the bare
variant is D (empty month), A (`F23`), B (`G23`); with the universe `F23G23H23`
the result is A, B. -/
theorem rolling_result_eq_filter_witness :
    GetRollingDataInstrumentsByProductIdFast sampleTx 10 (str "F23G23H23")
      = .ok [instrA, instrB] ∧
    ∃ R RF, GetRollingDataInstrumentsByProductId sampleTx 10 (str "F23G23H23") = .ok R ∧
      GetRollingDataInstrumentsByProductIdFast sampleTx 10 (str "F23G23H23") = .ok RF ∧
      R = [selectRolling (instrD, blockD), selectRolling (instrA, blockA)].filter
        (fun die => monthEligible (str "F23G23H23") die.Month) ∧
      RF = [instrD, instrA, instrB].filter
        (fun die => monthEligible (str "F23G23H23") die.Month) ∧
      (∀ die, R.count die = if monthEligible (str "F23G23H23") die.Month then
        [selectRolling (instrD, blockD), selectRolling (instrA, blockA)].count die else 0) ∧
      (∀ die, RF.count die = if monthEligible (str "F23G23H23") die.Month then
        [instrD, instrA, instrB].count die else 0) :=
  ⟨by decide, rolling_result_eq_filter sampleTx 10 (str "F23G23H23")
    [selectRolling (instrD, blockD), selectRolling (instrA, blockA)] [instrD, instrA, instrB]
    (by decide) (by decide)⟩

/-! ## Singular lookups -/

/-- C4: for each of the three singular lookups, a fetch of exactly one row
returns that row and no error, and a fetch of no row returns the absent value
and no error. -/
theorem lookup_one_or_none (tx : DB) (id pId productId : Nat) (symbol : GoString) :
    (∀ row, fetchById tx id = .ok [row] → GetDataInstrumentById tx id = (some row, none)) ∧
    (fetchById tx id = .ok [] → GetDataInstrumentById tx id = (none, none)) ∧
    (∀ row, fetchBySymbol tx productId symbol = .ok [row] →
      GetDataInstrumentBySymbol tx productId symbol = (some row, none)) ∧
    (fetchBySymbol tx productId symbol = .ok [] →
      GetDataInstrumentBySymbol tx productId symbol = (none, none)) ∧
    (∀ row, fetchVirtual tx pId = .ok [row] →
      GetVirtualDataInstrumentByProductId tx pId = (some row, none)) ∧
    (fetchVirtual tx pId = .ok [] →
      GetVirtualDataInstrumentByProductId tx pId = (none, none)) := by
  refine ⟨?_, ?_, ?_, ?_, ?_, ?_⟩
  · intro row h
    unfold GetDataInstrumentById
    rw [h]; rfl
  · intro h
    unfold GetDataInstrumentById
    rw [h]; rfl
  · intro row h
    unfold GetDataInstrumentBySymbol
    rw [h]; rfl
  · intro h
    unfold GetDataInstrumentBySymbol
    rw [h]; rfl
  · intro row h
    unfold GetVirtualDataInstrumentByProductId
    rw [h]; rfl
  · intro h
    unfold GetVirtualDataInstrumentByProductId
    rw [h]; rfl

/-- Witness of C4 on the sample store: instrument A is found by id and by
symbol, instrument C is the virtual instrument of product 10, and the lookups
of an unknown id, symbol and product are absent without error. -/
theorem lookup_one_or_none_witness :
    GetDataInstrumentById sampleTx 1 = (some instrA, none) ∧
    GetDataInstrumentBySymbol sampleTx 10 (str "ESF23") = (some instrA, none) ∧
    GetVirtualDataInstrumentByProductId sampleTx 10 = (some instrC, none) ∧
    GetDataInstrumentById sampleTx 99 = (none, none) ∧
    GetDataInstrumentBySymbol sampleTx 10 (str "NQ") = (none, none) ∧
    GetVirtualDataInstrumentByProductId sampleTx 11 = (none, none) :=
  ⟨(lookup_one_or_none sampleTx 1 10 10 (str "ESF23")).1 instrA (by decide),
   (lookup_one_or_none sampleTx 1 10 10 (str "ESF23")).2.2.1 instrA (by decide),
   (lookup_one_or_none sampleTx 1 10 10 (str "ESF23")).2.2.2.2.1 instrC (by decide),
   (lookup_one_or_none sampleTx 99 11 10 (str "NQ")).2.1 (by decide),
   (lookup_one_or_none sampleTx 99 11 10 (str "NQ")).2.2.2.1 (by decide),
   (lookup_one_or_none sampleTx 99 11 10 (str "NQ")).2.2.2.2.2 (by decide)⟩

/-- C3, as the code behaves: for each of the three singular lookups, a fetch of
more than one row returns the absent value and no error; no row of the fetch is
returned. -/
theorem lookup_many_is_absent (tx : DB) (id pId productId : Nat) (symbol : GoString) :
    (∀ list, fetchById tx id = .ok list → 1 < list.length →
      GetDataInstrumentById tx id = (none, none)) ∧
    (∀ list, fetchBySymbol tx productId symbol = .ok list → 1 < list.length →
      GetDataInstrumentBySymbol tx productId symbol = (none, none)) ∧
    (∀ list, fetchVirtual tx pId = .ok list → 1 < list.length →
      GetVirtualDataInstrumentByProductId tx pId = (none, none)) := by
  refine ⟨?_, ?_, ?_⟩
  · intro list h hl
    unfold GetDataInstrumentById
    rw [h]
    have hne : (list.length == 1) = false := by simp; omega
    simp only [hne, Bool.false_eq_true, if_false]
  · intro list h hl
    unfold GetDataInstrumentBySymbol
    rw [h]
    have hne : (list.length == 1) = false := by simp; omega
    simp only [hne, Bool.false_eq_true, if_false]
  · intro list h hl
    unfold GetVirtualDataInstrumentByProductId
    rw [h]
    have hne : (list.length == 1) = false := by simp; omega
    simp only [hne, Bool.false_eq_true, if_false]

/-- Witness of C3 as the code behaves, on the store with a duplicated row. -/
theorem lookup_many_is_absent_witness :
    GetDataInstrumentById dupTx 3 = (none, none) ∧
    GetDataInstrumentBySymbol dupTx 10 (str "ES") = (none, none) ∧
    GetVirtualDataInstrumentByProductId dupTx 10 = (none, none) :=
  ⟨(lookup_many_is_absent dupTx 3 10 10 (str "ES")).1
      [instrC, { instrC with Name := str "C2" }] (by decide) (by decide),
   (lookup_many_is_absent dupTx 3 10 10 (str "ES")).2.1
      [instrC, { instrC with Name := str "C2" }] (by decide) (by decide),
   (lookup_many_is_absent dupTx 3 10 10 (str "ES")).2.2
      [instrC, { instrC with Name := str "C2" }] (by decide) (by decide)⟩

/-- Counterexample to C3: on the store with a duplicated row each of the three
queries succeeds with two matching rows, and each lookup returns no error. -/
theorem lookup_many_no_error :
    fetchById dupTx 3 = .ok [instrC, { instrC with Name := str "C2" }] ∧
    (GetDataInstrumentById dupTx 3).2 = none ∧
    fetchBySymbol dupTx 10 (str "ES") = .ok [instrC, { instrC with Name := str "C2" }] ∧
    (GetDataInstrumentBySymbol dupTx 10 (str "ES")).2 = none ∧
    fetchVirtual dupTx 10 = .ok [instrC, { instrC with Name := str "C2" }] ∧
    (GetVirtualDataInstrumentByProductId dupTx 10).2 = none := by
  decide

/-! ## Full listing -/

theorem mem_leftMatches {β : Type} (l : List β) (x : Option β) :
    x ∈ leftMatches l ↔ (l = [] ∧ x = none) ∨ ∃ b ∈ l, x = some b := by
  cases l with
  | nil => simp [leftMatches]
  | cons b bs =>
    simp only [leftMatches, List.mem_map, reduceCtorEq, false_and, false_or]
    constructor
    · rintro ⟨c, hc, rfl⟩; exact ⟨c, hc, rfl⟩
    · rintro ⟨c, hc, rfl⟩; exact ⟨c, hc, rfl⟩

theorem exists_mem_leftMatches {β : Type} (l : List β) : ∃ x, x ∈ leftMatches l := by
  cases l with
  | nil => exact ⟨none, by simp [leftMatches]⟩
  | cons b bs => exact ⟨some b, by simp [leftMatches]⟩

theorem mem_joinFull (tx : DB) (r : FullRow) :
    r ∈ joinFull tx ↔
      r.di ∈ tx.dataInstrument ∧
      r.db ∈ leftMatches (tx.dataBlock.filter (fun db => r.di.DataBlockId == some db.Id)) ∧
      r.dj ∈ leftMatches (tx.downloadJob.filter (fun dj => dj.DataInstrumentId == r.di.Id)) ∧
      r.ij ∈ leftMatches (tx.ingestionJob.filter (fun ij => ij.DataInstrumentId == r.di.Id)) := by
  unfold joinFull
  simp only [List.mem_flatMap, List.mem_map]
  constructor
  · rintro ⟨di, hdi, db, hdb, dj, hdj, ij, hij, rfl⟩
    exact ⟨hdi, hdb, hdj, hij⟩
  · rintro ⟨hdi, hdb, hdj, hij⟩
    exact ⟨r.di, hdi, r.db, hdb, r.dj, hdj, r.ij, hij, rfl⟩

theorem mem_fullRows (tx : DB) (pId : Nat) (stored : Bool) (r : DataInstrumentExt) :
    r ∈ fullRows tx pId stored ↔
      ∃ fr ∈ joinFull tx, fullFilter pId stored fr = true ∧ selectFull fr = r := by
  unfold fullRows
  simp only [List.mem_map, mem_orderBy, List.mem_filter]
  constructor
  · rintro ⟨fr, ⟨h1, h2⟩, rfl⟩; exact ⟨fr, h1, h2, rfl⟩
  · rintro ⟨fr, h1, h2, rfl⟩; exact ⟨fr, ⟨h1, h2⟩, rfl⟩

theorem exists_row_of_instrument (tx : DB) (di : DataInstrument) (hdi : di ∈ tx.dataInstrument)
    (db : Option DataBlock)
    (hdb : db ∈ leftMatches (tx.dataBlock.filter (fun b => di.DataBlockId == some b.Id))) :
    ∃ fr ∈ joinFull tx, fr.di = di ∧ fr.db = db := by
  obtain ⟨dj, hdj⟩ := exists_mem_leftMatches
    (tx.downloadJob.filter (fun dj => dj.DataInstrumentId == di.Id))
  obtain ⟨ij, hij⟩ := exists_mem_leftMatches
    (tx.ingestionJob.filter (fun ij => ij.DataInstrumentId == di.Id))
  exact ⟨⟨di, db, dj, ij⟩, (mem_joinFull tx _).mpr ⟨hdi, hdb, hdj, hij⟩, rfl, rfl⟩

theorem fullFilter_true (pId : Nat) (fr : FullRow) :
    fullFilter pId true fr = true ↔
      fr.di.DataProductId = pId ∧ (fr.status ≠ none ∨ fr.di.VirtualInstrument = true) := by
  simp [fullFilter, Option.isSome_iff_ne_none]

theorem fullFilter_false (pId : Nat) (fr : FullRow) :
    fullFilter pId false fr = true ↔ fr.di.DataProductId = pId := by
  simp [fullFilter]

theorem status_stored_iff (tx : DB) (di : DataInstrument) :
    (∃ db ∈ leftMatches (tx.dataBlock.filter (fun b => di.DataBlockId == some b.Id)),
        db.bind (fun b => b.Status) ≠ none) ↔ hasStoredBlock tx di := by
  unfold hasStoredBlock
  constructor
  · rintro ⟨db, hdb, hs⟩
    rcases (mem_leftMatches _ _).mp hdb with ⟨_, rfl⟩ | ⟨b, hb, rfl⟩
    · exact absurd rfl hs
    · rw [List.mem_filter] at hb
      exact ⟨b, hb.1, by simpa using hb.2, by simpa using hs⟩
  · rintro ⟨b, hb, hid, hs⟩
    refine ⟨some b, (mem_leftMatches _ _).mpr (Or.inr ⟨b, ?_, rfl⟩), by simpa using hs⟩
    rw [List.mem_filter]
    exact ⟨hb, by simpa using hid⟩

/-- C7: when the query succeeds, the full listing with `stored = true` returns
an instrument of the product exactly when it has a joined data block with a
non-null status or its `virtualInstrument` flag is set (so an instrument with
no data block is returned exactly when it is virtual), and the listing with
`stored = false` returns every instrument of the product, also one with no data
block, download job or ingestion job; both return instruments of the product
only. -/
theorem full_listing_stored (tx : DB) (pId : Nat) (hok : tx.fault = none) :
    ∃ R RA, GetDataInstrumentsByProductIdFull tx pId true = .ok R ∧
      GetDataInstrumentsByProductIdFull tx pId false = .ok RA ∧
      (∀ r ∈ R, r.toDataInstrument ∈ tx.dataInstrument ∧ r.DataProductId = pId) ∧
      (∀ r ∈ RA, r.toDataInstrument ∈ tx.dataInstrument ∧ r.DataProductId = pId) ∧
      (∀ di ∈ tx.dataInstrument, di.DataProductId = pId →
        ((∃ r ∈ R, r.toDataInstrument = di) ↔
          (hasStoredBlock tx di ∨ di.VirtualInstrument = true))) ∧
      (∀ di ∈ tx.dataInstrument, di.DataProductId = pId →
        (∀ db ∈ tx.dataBlock, di.DataBlockId ≠ some db.Id) →
        ((∃ r ∈ R, r.toDataInstrument = di) ↔ di.VirtualInstrument = true)) ∧
      (∀ di ∈ tx.dataInstrument, di.DataProductId = pId →
        ∃ r ∈ RA, r.toDataInstrument = di) ∧
      (∀ di ∈ tx.dataInstrument, di.DataProductId = pId → hasNoActivity tx di →
        ∃ r ∈ RA, r.toDataInstrument = di ∧ r.Status = none) := by
  have key : ∀ di ∈ tx.dataInstrument, di.DataProductId = pId →
      ((∃ r ∈ fullRows tx pId true, r.toDataInstrument = di) ↔
        (hasStoredBlock tx di ∨ di.VirtualInstrument = true)) := by
    intro di hdi hp
    constructor
    · rintro ⟨r, hr, rfl⟩
      obtain ⟨fr, hfr, hflt, rfl⟩ := (mem_fullRows tx pId true _).mp hr
      rcases ((fullFilter_true pId fr).mp hflt).2 with hs | hv
      · left
        exact (status_stored_iff tx fr.di).mp ⟨fr.db, ((mem_joinFull tx fr).mp hfr).2.1, hs⟩
      · right; exact hv
    · rintro (hs | hv)
      · obtain ⟨db, hdb, hst⟩ := (status_stored_iff tx di).mpr hs
        obtain ⟨fr, hfr, rfl, rfl⟩ := exists_row_of_instrument tx di hdi db hdb
        exact ⟨selectFull fr, (mem_fullRows tx pId true _).mpr
          ⟨fr, hfr, (fullFilter_true pId fr).mpr ⟨hp, Or.inl hst⟩, rfl⟩, rfl⟩
      · obtain ⟨db, hdb⟩ := exists_mem_leftMatches
          (tx.dataBlock.filter (fun b => di.DataBlockId == some b.Id))
        obtain ⟨fr, hfr, rfl, _⟩ := exists_row_of_instrument tx di hdi db hdb
        exact ⟨selectFull fr, (mem_fullRows tx pId true _).mpr
          ⟨fr, hfr, (fullFilter_true pId fr).mpr ⟨hp, Or.inr hv⟩, rfl⟩, rfl⟩
  refine ⟨fullRows tx pId true, fullRows tx pId false, ?_, ?_, ?_, ?_, key, ?_, ?_, ?_⟩
  · simp [GetDataInstrumentsByProductIdFull, DB.Find, hok]
  · simp [GetDataInstrumentsByProductIdFull, DB.Find, hok]
  · intro r hr
    obtain ⟨fr, hfr, hflt, rfl⟩ := (mem_fullRows tx pId true _).mp hr
    exact ⟨((mem_joinFull tx fr).mp hfr).1, ((fullFilter_true pId fr).mp hflt).1⟩
  · intro r hr
    obtain ⟨fr, hfr, hflt, rfl⟩ := (mem_fullRows tx pId false _).mp hr
    exact ⟨((mem_joinFull tx fr).mp hfr).1, (fullFilter_false pId fr).mp hflt⟩
  · intro di hdi hp hnb
    rw [key di hdi hp]
    constructor
    · rintro (⟨db, hdb, hid, _⟩ | hv)
      · exact absurd hid (hnb db hdb)
      · exact hv
    · exact Or.inr
  · intro di hdi hp
    obtain ⟨db, hdb⟩ := exists_mem_leftMatches
      (tx.dataBlock.filter (fun b => di.DataBlockId == some b.Id))
    obtain ⟨fr, hfr, rfl, _⟩ := exists_row_of_instrument tx di hdi db hdb
    exact ⟨selectFull fr, (mem_fullRows tx pId false _).mpr
      ⟨fr, hfr, (fullFilter_false pId fr).mpr hp, rfl⟩, rfl⟩
  · intro di hdi hp hna
    have hnil : tx.dataBlock.filter (fun b => di.DataBlockId == some b.Id) = [] := by
      rw [List.filter_eq_nil_iff]
      intro b hb hid
      exact hna.1 b hb (by simpa using hid)
    obtain ⟨fr, hfr, rfl, hdb⟩ := exists_row_of_instrument tx di hdi none
      ((mem_leftMatches _ _).mpr (Or.inl ⟨hnil, rfl⟩))
    refine ⟨selectFull fr, (mem_fullRows tx pId false _).mpr
      ⟨fr, hfr, (fullFilter_false pId fr).mpr hp, rfl⟩, rfl, ?_⟩
    simp [selectFull, FullRow.status, hdb]

/-- Witness of C7 on the sample store: with `stored = true` the listing holds
C (virtual, no data block), D and A (data blocks with a status) and not B (no
data block, not virtual); with `stored = false` it also holds B. -/
theorem full_listing_stored_witness :
    sampleTx.fault = none ∧
    GetDataInstrumentsByProductIdFull sampleTx 10 true
      = .ok [selectFull ⟨instrC, none, none, none⟩, selectFull ⟨instrD, some blockD, none, none⟩,
             selectFull ⟨instrA, some blockA, none, none⟩] ∧
    ∃ R RA, GetDataInstrumentsByProductIdFull sampleTx 10 true = .ok R ∧
      GetDataInstrumentsByProductIdFull sampleTx 10 false = .ok RA ∧
      (∃ r ∈ R, r.toDataInstrument = instrC) ∧
      (¬ ∃ r ∈ R, r.toDataInstrument = instrB) ∧
      (∃ r ∈ RA, r.toDataInstrument = instrB ∧ r.Status = none) := by
  obtain ⟨R, RA, h1, h2, _, _, _, hnb, _, hna⟩ := full_listing_stored sampleTx 10 rfl
  refine ⟨rfl, by decide, R, RA, h1, h2, ?_, ?_, ?_⟩
  · exact (hnb instrC (by decide) rfl (by decide)).mpr rfl
  · intro h
    have hv := (hnb instrB (by decide) rfl (by decide)).mp h
    exact absurd hv (by decide)
  · exact hna instrB (by decide) rfl (by simp [hasNoActivity, sampleTx, instrB])

/-! ## Filtered listing -/

theorem get_cons (e : GoString × Value) (m : Criteria) (j : GoString) :
    Criteria.get (e :: m) j = if e.1 = j then some e.2 else Criteria.get m j := by
  unfold Criteria.get
  by_cases h : e.1 = j
  · simp [List.find?_cons, h]
  · simp [List.find?_cons, h]

theorem delete_cons (e : GoString × Value) (m : Criteria) (k : GoString) :
    Criteria.delete (e :: m) k = if e.1 = k then m.delete k else e :: m.delete k := by
  unfold Criteria.delete
  by_cases h : e.1 = k
  · simp [List.filter_cons, h]
  · simp [List.filter_cons, h]

theorem get_delete_self (m : Criteria) (k : GoString) : (m.delete k).get k = none := by
  induction m with
  | nil => rfl
  | cons e m ih =>
    rw [delete_cons]
    by_cases h : e.1 = k
    · rw [if_pos h]; exact ih
    · rw [if_neg h, get_cons, if_neg h]; exact ih

theorem get_delete_ne (m : Criteria) {k j : GoString} (h : j ≠ k) :
    (m.delete k).get j = m.get j := by
  induction m with
  | nil => rfl
  | cons e m ih =>
    rw [delete_cons, get_cons]
    by_cases hk : e.1 = k
    · have hj : ¬ e.1 = j := fun hj => h (hj.symm.trans hk)
      rw [if_pos hk, if_neg hj]; exact ih
    · rw [if_neg hk, get_cons, ih]

theorem get_append_of_none (m n : Criteria) {j : GoString} (h : m.get j = none) :
    Criteria.get (m ++ n) j = Criteria.get n j := by
  induction m with
  | nil => rfl
  | cons e m ih =>
    rw [get_cons] at h
    rw [List.cons_append, get_cons]
    by_cases hj : e.1 = j
    · rw [if_pos hj] at h; cases h
    · rw [if_neg hj] at h
      rw [if_neg hj]; exact ih h

theorem get_append_of_ne (m : Criteria) {k j : GoString} (v : Value) (h : j ≠ k) :
    Criteria.get (m ++ [(k, v)]) j = Criteria.get m j := by
  induction m with
  | nil =>
    have hk : ¬ k = j := fun hk => h hk.symm
    rw [List.nil_append, get_cons, if_neg hk]
  | cons e m ih =>
    rw [List.cons_append, get_cons, get_cons, ih]

theorem get_set_self (m : Criteria) (k : GoString) (v : Value) : (m.set k v).get k = some v := by
  unfold Criteria.set
  rw [get_append_of_none _ _ (get_delete_self m k), get_cons, if_pos rfl]

theorem get_set_ne (m : Criteria) {k j : GoString} (v : Value) (h : j ≠ k) :
    (m.set k v).get j = m.get j := by
  unfold Criteria.set
  rw [get_append_of_ne _ v h, get_delete_ne m h]

theorem mem_of_get {m : Criteria} {k : GoString} {v : Value} (h : m.get k = some v) :
    (k, v) ∈ m := by
  induction m with
  | nil => cases h
  | cons e m ih =>
    rw [get_cons] at h
    by_cases hk : e.1 = k
    · rw [if_pos hk] at h
      have hv : e.2 = v := Option.some.inj h
      have : e = (k, v) := Prod.ext hk hv
      rw [this]; exact List.mem_cons_self _ _
    · rw [if_neg hk] at h
      exact List.mem_cons_of_mem _ (ih h)

/-- C8: the criteria `GetDataInstrumentsFull` applies to its query. When the
given map has the key `username` with value `u`, the applied criteria have no
key `username`, map `dp.username` to `u` and agree with the given map on every
other key, so that every returned instrument belongs to a product whose
username is `u`; when the given map has no key `username`, the applied criteria
are the given map. -/
theorem username_criterion_rewritten (tx : DB) (F : Criteria) :
    (∀ u, F.get (str "username") = some u →
      (appliedCriteria F).get (str "username") = none ∧
      (appliedCriteria F).get (str "dp.username") = some u ∧
      (∀ k, k ≠ str "username" → k ≠ str "dp.username" →
        (appliedCriteria F).get k = F.get k)) ∧
    (F.get (str "username") = none → appliedCriteria F = F) ∧
    (∀ u R, F.get (str "username") = some (Value.text u) →
      GetDataInstrumentsFull tx F = .ok R →
      ∀ r ∈ R, ∃ dp ∈ tx.dataProduct, dp.Id = r.DataProductId ∧ dp.Username = u) := by
  have hne : str "username" ≠ str "dp.username" := by decide
  have part1 : ∀ u, F.get (str "username") = some u →
      (appliedCriteria F).get (str "username") = none ∧
      (appliedCriteria F).get (str "dp.username") = some u ∧
      (∀ k, k ≠ str "username" → k ≠ str "dp.username" →
        (appliedCriteria F).get k = F.get k) := by
    intro u hu
    unfold appliedCriteria
    rw [hu]
    refine ⟨?_, get_set_self _ _ _, ?_⟩
    · rw [get_set_ne _ _ hne]
      exact get_delete_self F _
    · intro k hk1 hk2
      rw [get_set_ne _ _ hk2, get_delete_ne _ hk1]
  refine ⟨part1, ?_, ?_⟩
  · intro h
    unfold appliedCriteria
    rw [h]
  · intro u R hu hR r hr
    have hmem := mem_of_get (part1 _ hu).2.1
    unfold GetDataInstrumentsFull at hR
    cases hq : whereOrderFind tx (appliedCriteria F) with
    | error e => rw [hq] at hR; cases hR
    | ok list =>
      rw [hq] at hR
      simp only [Except.ok.injEq] at hR
      subst hR
      unfold whereOrderFind at hq
      split at hq
      · obtain ⟨_, rfl⟩ := Find_eq_ok hq
        rw [List.mem_map] at hr
        obtain ⟨row, hrow, rfl⟩ := hr
        rw [mem_orderBy, List.mem_filter] at hrow
        obtain ⟨hj, hs⟩ := hrow
        unfold joinDataProduct at hj
        simp only [List.mem_flatMap, List.mem_map, List.mem_filter] at hj
        obtain ⟨di, _, dp, ⟨hdp, hid⟩, rfl⟩ := hj
        refine ⟨dp, hdp, by simpa using hid, ?_⟩
        unfold satisfies at hs
        rw [List.all_eq_true] at hs
        have hc := hs _ hmem
        have hcol : column (di, dp) (str "dp.username") = some (Value.text dp.Username) := by
          rfl
        rw [hcol] at hc
        simpa [Value.sql] using hc
      · cases hq

/-- Witness of C8: the map with `username = alice` is applied as the map with
`dp.username = alice`, and a map without `username` is applied unchanged. -/
theorem username_criterion_rewritten_witness :
    appliedCriteria aliceCriteria
      = [(str "continuous", Value.int 0), (str "dp.username", Value.text (str "alice"))] ∧
    (appliedCriteria aliceCriteria).get (str "username") = none ∧
    (appliedCriteria aliceCriteria).get (str "dp.username")
      = some (Value.text (str "alice")) ∧
    appliedCriteria [(str "continuous", Value.int 0)] = [(str "continuous", Value.int 0)] :=
  ⟨by decide,
   ((username_criterion_rewritten sampleTx aliceCriteria).1
      (Value.text (str "alice")) (by decide)).1,
   ((username_criterion_rewritten sampleTx aliceCriteria).1
      (Value.text (str "alice")) (by decide)).2.1,
   (username_criterion_rewritten sampleTx [(str "continuous", Value.int 0)]).2.1 (by decide)⟩

/-! ## Month tokens -/

theorem length_concatTokens (w : Nat) (T : List GoString) (hT : ∀ t ∈ T, t.length = w) :
    (concatTokens T).length = w * T.length := by
  induction T with
  | nil => simp [concatTokens]
  | cons t T ih =>
    have ht : t.length = w := hT t (List.mem_cons_self _ _)
    have ih2 := ih (fun x hx => hT x (List.mem_cons_of_mem _ hx))
    simp only [concatTokens, List.flatten_cons, List.length_append, List.length_cons] at ih2 ⊢
    rw [ih2, ht, Nat.mul_succ, Nat.add_comm]

theorem aligned_of_mem (w : Nat) (T : List GoString) (hT : ∀ t ∈ T, t.length = w)
    (m : GoString) (h : m ∈ T) :
    ∃ pre suf, concatTokens T = pre ++ m ++ suf ∧ w ∣ pre.length := by
  obtain ⟨T1, T2, rfl⟩ := List.append_of_mem h
  refine ⟨concatTokens T1, concatTokens T2, ?_, ?_⟩
  · simp [concatTokens]
  · rw [length_concatTokens w T1 (fun t ht => hT t (List.mem_append_left _ ht))]
    exact Dvd.intro _ rfl

theorem mem_of_aligned (w : Nat) (hw : 0 < w) (m : GoString) (hm : m.length = w) :
    ∀ (T : List GoString), (∀ t ∈ T, t.length = w) → ∀ (pre suf : GoString),
      concatTokens T = pre ++ m ++ suf → w ∣ pre.length → m ∈ T := by
  intro T
  induction T with
  | nil =>
    intro _ pre suf h _
    have hl := congrArg List.length h
    simp [concatTokens] at hl
    omega
  | cons t T ih =>
    intro hT pre suf h hd
    have ht : t.length = w := hT t (List.mem_cons_self _ _)
    have hT2 : ∀ x ∈ T, x.length = w := fun x hx => hT x (List.mem_cons_of_mem _ hx)
    have h2 : t ++ concatTokens T = pre ++ m ++ suf := h
    by_cases hp : pre.length = 0
    · have hnil : pre = [] := List.length_eq_zero.mp hp
      subst hnil
      rw [List.nil_append] at h2
      have := (List.append_inj h2 (ht.trans hm.symm)).1
      rw [this]; exact List.mem_cons_self _ _
    · have hge : w ≤ pre.length := Nat.le_of_dvd (Nat.pos_of_ne_zero hp) hd
      have hsplit : pre = pre.take w ++ pre.drop w := (List.take_append_drop w pre).symm
      have hlt : (pre.take w).length = w := by
        rw [List.length_take]; omega
      have h3 : t ++ concatTokens T = pre.take w ++ (pre.drop w ++ m ++ suf) := by
        rw [h2]
        nth_rewrite 1 [hsplit]
        simp only [List.append_assoc]
      have h4 := (List.append_inj h3 (ht.trans hlt.symm)).2
      have hd2 : w ∣ (pre.drop w).length := by
        rw [List.length_drop]
        exact (Nat.dvd_sub' hd (dvd_refl w))
      exact List.mem_cons_of_mem _ (ih hT2 _ suf h4 hd2)

/-- C9, as it holds: for tokens of a fixed length `w > 0` and a month code `m`
of length `w`, membership of `m` in the token list implies that the test
`strings.Index(months, m) >= 0` succeeds on the concatenation of the tokens, and
membership is equivalent to an occurrence of `m` in the concatenation at an
offset that is a multiple of `w`. -/
theorem token_member_iff_aligned (w : Nat) (hw : 0 < w) (T : List GoString)
    (hT : ∀ t ∈ T, t.length = w) (m : GoString) (hm : m.length = w) :
    (m ∈ T → monthTest (concatTokens T) m = true) ∧
    (m ∈ T ↔ ∃ pre suf, concatTokens T = pre ++ m ++ suf ∧ w ∣ pre.length) := by
  refine ⟨?_, ?_, ?_⟩
  · intro h
    obtain ⟨pre, suf, he, _⟩ := aligned_of_mem w T hT m h
    unfold monthTest
    rw [decide_eq_true_iff, stringsIndex_nonneg_iff]
    exact ⟨pre, suf, he.symm⟩
  · exact aligned_of_mem w T hT m
  · rintro ⟨pre, suf, he, hd⟩
    exact mem_of_aligned w hw m hm T hT pre suf he hd

/-- Witness of C9 as it holds: the token `G23` of the universe `F23G23H23`. -/
theorem token_member_iff_aligned_witness :
    (str "G23" ∈ [str "F23", str "G23", str "H23"] →
      monthTest (concatTokens [str "F23", str "G23", str "H23"]) (str "G23") = true) ∧
    (str "G23" ∈ [str "F23", str "G23", str "H23"] ↔
      ∃ pre suf, concatTokens [str "F23", str "G23", str "H23"] = pre ++ str "G23" ++ suf ∧
        3 ∣ pre.length) :=
  token_member_iff_aligned 3 (by decide) [str "F23", str "G23", str "H23"] (by decide)
    (str "G23") (by decide)

/-- Counterexample to C9: the tokens `F23`, `G23` and the code `3G2` all have
length 3, the test `strings.Index(months, m) >= 0` succeeds for `3G2` on the
concatenation `F23G23`, where `3G2` is a contiguous substring, and `3G2` is not
one of the tokens. -/
theorem token_substring_not_member :
    0 < 3 ∧ (∀ t ∈ [str "F23", str "G23"], t.length = 3) ∧ (str "3G2").length = 3 ∧
    monthTest (concatTokens [str "F23", str "G23"]) (str "3G2") = true ∧
    str "3G2" <:+: concatTokens [str "F23", str "G23"] ∧
    str "3G2" ∉ [str "F23", str "G23"] := by
  decide

/-! ## Overlay variant against bare variant -/

theorem nullableLe_total (a b : Option Int) : nullableLe a b = true ∨ nullableLe b a = true := by
  cases a with
  | none => left; rfl
  | some x =>
    cases b with
    | none => right; rfl
    | some y =>
      simp only [nullableLe, decide_eq_true_eq]
      exact le_total x y

theorem nullableLe_trans (a b c : Option Int) (h1 : nullableLe a b = true)
    (h2 : nullableLe b c = true) : nullableLe a c = true := by
  cases a with
  | none => rfl
  | some x =>
    cases b with
    | none => simp [nullableLe] at h1
    | some y =>
      cases c with
      | none => simp [nullableLe] at h2
      | some z =>
        simp only [nullableLe, decide_eq_true_eq] at h1 h2 ⊢
        exact le_trans h1 h2

theorem filter_orderedInsert {α : Type} (r : α → α → Prop) [DecidableRel r]
    (htr : ∀ a b c, r a b → r b c → r a c) (p : α → Bool) (a : α) :
    ∀ l : List α, l.Sorted r →
      (l.orderedInsert r a).filter p
        = if p a = true then (l.filter p).orderedInsert r a else l.filter p := by
  intro l
  induction l with
  | nil =>
    intro _
    by_cases hpa : p a = true
    · simp [hpa]
    · simp [hpa]
  | cons b l ih =>
    intro hs
    have hs2 : l.Sorted r := hs.of_cons
    have hb : ∀ c ∈ l, r b c := List.rel_of_sorted_cons hs
    by_cases hab : r a b
    · rw [List.orderedInsert_of_le r l hab]
      by_cases hpa : p a = true
      · rw [if_pos hpa, List.filter_cons_of_pos hpa]
        cases hf : (b :: l).filter p with
        | nil => rfl
        | cons c cs =>
          have hc : c ∈ (b :: l).filter p := by rw [hf]; exact List.mem_cons_self _ _
          have hc2 : c ∈ b :: l := (List.mem_filter.mp hc).1
          have hac : r a c := by
            rcases List.mem_cons.mp hc2 with rfl | hm
            · exact hab
            · exact htr _ _ _ hab (hb c hm)
          rw [List.orderedInsert_of_le r cs hac]
      · rw [if_neg hpa, List.filter_cons_of_neg hpa]
    · have e : (b :: l).orderedInsert r a = b :: l.orderedInsert r a := by
        simp only [List.orderedInsert, if_neg hab]
      rw [e]
      by_cases hpb : p b = true
      · rw [List.filter_cons_of_pos hpb, ih hs2, List.filter_cons_of_pos hpb]
        by_cases hpa : p a = true
        · rw [if_pos hpa, if_pos hpa]
          simp only [List.orderedInsert, if_neg hab]
        · rw [if_neg hpa, if_neg hpa]
      · rw [List.filter_cons_of_neg hpb, ih hs2, List.filter_cons_of_neg hpb]

theorem filter_orderBy {α : Type} (le : α → α → Bool)
    (htot : ∀ a b, le a b = true ∨ le b a = true)
    (htr : ∀ a b c, le a b = true → le b c = true → le a c = true) (p : α → Bool) :
    ∀ l : List α, (orderBy le l).filter p = orderBy le (l.filter p) := by
  haveI : IsTotal α (fun a b => le a b = true) := ⟨htot⟩
  haveI : IsTrans α (fun a b => le a b = true) := ⟨htr⟩
  intro l
  unfold orderBy
  induction l with
  | nil => rfl
  | cons a l ih =>
    rw [List.insertionSort, filter_orderedInsert _ htr p a _ (List.sorted_insertionSort _ l), ih]
    by_cases hpa : p a = true
    · rw [if_pos hpa, List.filter_cons_of_pos hpa, List.insertionSort]
    · rw [if_neg hpa, List.filter_cons_of_neg hpa]

theorem map_fst_orderBy (rows : List (DataInstrument × DataBlock)) :
    (orderBy (fun a b => byExpiration a.1 b.1) rows).map Prod.fst
      = orderBy byExpiration (rows.map Prod.fst) := by
  unfold orderBy
  exact List.map_insertionSort _ _ Prod.fst rows (fun _ _ _ _ => Iff.rfl)

theorem matches_length_le_one (blocks : List DataBlock)
    (hkey : (blocks.map (fun db => db.Id)).Nodup) (k : Option Nat) :
    (blocks.filter (fun db => k == some db.Id)).length ≤ 1 := by
  induction blocks with
  | nil => simp
  | cons b bs ih =>
    rw [List.map_cons, List.nodup_cons] at hkey
    by_cases hk : (k == some b.Id) = true
    · rw [List.filter_cons, if_pos hk]
      have hnil : bs.filter (fun db => k == some db.Id) = [] := by
        rw [List.filter_eq_nil_iff]
        intro c hc hkc
        apply hkey.1
        have h1 : k = some b.Id := by simpa using hk
        have h2 : k = some c.Id := by simpa using hkc
        have h3 : c.Id = b.Id := Option.some.inj (h2.symm.trans h1)
        rw [← h3]
        exact List.mem_map.mpr ⟨c, hc, rfl⟩
      rw [hnil]; simp
    · rw [List.filter_cons, if_neg hk]
      exact ih hkey.2

theorem map_fst_matches (tx : DB) (hkey : (tx.dataBlock.map (fun db => db.Id)).Nodup)
    (di : DataInstrument) :
    ((tx.dataBlock.filter (fun db => di.DataBlockId == some db.Id)).map
        (fun db => (di, db))).map Prod.fst
      = if hasDataBlock tx di = true then [di] else [] := by
  have hlen := matches_length_le_one tx.dataBlock hkey di.DataBlockId
  cases hf : tx.dataBlock.filter (fun db => di.DataBlockId == some db.Id) with
  | nil =>
    have hno : hasDataBlock tx di = false := by
      unfold hasDataBlock
      rw [List.any_eq_false]
      intro b hb hc
      have : b ∈ tx.dataBlock.filter (fun db => di.DataBlockId == some db.Id) :=
        List.mem_filter.mpr ⟨hb, hc⟩
      rw [hf] at this
      cases this
    simp [hno]
  | cons b bs =>
    rw [hf] at hlen
    have hbs : bs = [] := by
      cases bs with
      | nil => rfl
      | cons c cs => simp at hlen
    subst hbs
    have hb : b ∈ tx.dataBlock.filter (fun db => di.DataBlockId == some db.Id) := by
      rw [hf]; exact List.mem_cons_self _ _
    have hyes : hasDataBlock tx di = true := by
      unfold hasDataBlock
      rw [List.any_eq_true]
      exact ⟨b, (List.mem_filter.mp hb).1, (List.mem_filter.mp hb).2⟩
    simp [hyes]

theorem map_fst_joinDataBlock (tx : DB) (hkey : (tx.dataBlock.map (fun db => db.Id)).Nodup) :
    (joinDataBlock tx).map Prod.fst = tx.dataInstrument.filter (hasDataBlock tx) := by
  unfold joinDataBlock
  induction tx.dataInstrument with
  | nil => rfl
  | cons di ds ih =>
    rw [List.flatMap_cons, List.map_append, ih, map_fst_matches tx hkey di]
    by_cases h : hasDataBlock tx di = true
    · rw [if_pos h, List.filter_cons_of_pos h]; rfl
    · rw [if_neg h, List.filter_cons_of_neg h]; rfl

theorem filter_comm_bool {α : Type} (p q : α → Bool) (l : List α) :
    (l.filter p).filter q = (l.filter q).filter p := by
  rw [List.filter_filter, List.filter_filter]
  congr 1
  funext a
  exact Bool.and_comm _ _

theorem map_rollingRows (tx : DB) (pId : Nat)
    (hkey : (tx.dataBlock.map (fun db => db.Id)).Nodup) :
    (rollingRows tx pId).map (fun die => die.toDataInstrument)
      = (rollingRowsFast tx pId).filter (hasDataBlock tx) := by
  unfold rollingRows rollingRowsFast
  rw [List.map_map]
  have hsel : (fun die : DataInstrumentExt => die.toDataInstrument) ∘ selectRolling
      = Prod.fst := rfl
  rw [hsel, map_fst_orderBy]
  have hflt : ((joinDataBlock tx).filter
        (fun r => r.1.DataProductId == pId && r.1.Continuous == false)).map Prod.fst
      = ((joinDataBlock tx).map Prod.fst).filter
        (fun di => di.DataProductId == pId && di.Continuous == false) := by
    rw [List.filter_map]; rfl
  rw [hflt, map_fst_joinDataBlock tx hkey, filter_comm_bool,
    filter_orderBy byExpiration (fun a b => nullableLe_total _ _)
      (fun a b c => nullableLe_trans _ _ _)]

/-- C5, as the code behaves: when the query succeeds and the ids of `data_block`
are unique, the overlay variant returns, in the same order, exactly those
instruments of the bare variant that have a data block; the two variants return
the same instruments when every instrument the bare variant returns has a data
block. -/
theorem rolling_overlay_eq_fast_with_block (tx : DB) (pId : Nat) (months : GoString)
    (hok : tx.fault = none) (hkey : (tx.dataBlock.map (fun db => db.Id)).Nodup) :
    ∃ R RF, GetRollingDataInstrumentsByProductId tx pId months = .ok R ∧
      GetRollingDataInstrumentsByProductIdFast tx pId months = .ok RF ∧
      R.map (fun die => die.toDataInstrument) = RF.filter (hasDataBlock tx) ∧
      ((∀ di ∈ RF, hasDataBlock tx di = true) →
        R.map (fun die => die.toDataInstrument) = RF) := by
  have h : fetchRolling tx pId = .ok (rollingRows tx pId) := by
    simp [fetchRolling, DB.Find, hok]
  have hF : fetchRollingFast tx pId = .ok (rollingRowsFast tx pId) := by
    simp [fetchRollingFast, DB.Find, hok]
  have main : ((rollingRows tx pId).filter
        (inMonthSet (fun die => die.Month) months)).map (fun die => die.toDataInstrument)
      = ((rollingRowsFast tx pId).filter (inMonthSet DataInstrument.Month months)).filter
        (hasDataBlock tx) := by
    have e : ((rollingRows tx pId).filter
          (inMonthSet (fun die => die.Month) months)).map (fun die => die.toDataInstrument)
        = ((rollingRows tx pId).map (fun die => die.toDataInstrument)).filter
          (inMonthSet DataInstrument.Month months) := by
      rw [List.filter_map]; rfl
    rw [e, map_rollingRows tx pId hkey, filter_comm_bool]
  refine ⟨_, _, rolling_of_fetch months h, rollingFast_of_fetch months hF, main, ?_⟩
  intro hall
  rw [main]
  exact List.filter_eq_self.mpr hall

/-- Witness of C5 as the code behaves, on the sample store: the bare variant returns A
and B, and the overlay variant returns A only, because B has no data block. -/
theorem rolling_overlay_eq_fast_with_block_witness :
    sampleTx.fault = none ∧ (sampleTx.dataBlock.map (fun db => db.Id)).Nodup ∧
    ∃ R RF, GetRollingDataInstrumentsByProductId sampleTx 10 (str "F23G23H23") = .ok R ∧
      GetRollingDataInstrumentsByProductIdFast sampleTx 10 (str "F23G23H23") = .ok RF ∧
      R.map (fun die => die.toDataInstrument) = RF.filter (hasDataBlock sampleTx) ∧
      ((∀ di ∈ RF, hasDataBlock sampleTx di = true) →
        R.map (fun die => die.toDataInstrument) = RF) :=
  ⟨rfl, by decide,
    rolling_overlay_eq_fast_with_block sampleTx 10 (str "F23G23H23") rfl (by decide)⟩

/-- Counterexample to C5: in the sample store instrument B belongs to product
10, has `continuous = false`, a non-empty month contained in `F23G23H23` and no
data block; the bare variant returns A and B, the overlay variant returns A
only. -/
theorem rolling_overlay_drops_blockless :
    instrB ∈ sampleTx.dataInstrument ∧ instrB.DataProductId = 10 ∧
    instrB.Continuous = false ∧ instrB.Month ≠ [] ∧ instrB.Month <:+: str "F23G23H23" ∧
    hasDataBlock sampleTx instrB = false ∧
    GetRollingDataInstrumentsByProductIdFast sampleTx 10 (str "F23G23H23")
      = .ok [instrA, instrB] ∧
    GetRollingDataInstrumentsByProductId sampleTx 10 (str "F23G23H23")
      = .ok [selectRolling (instrA, blockA)] := by
  decide

end DataCollector
